import Mathlib

/-!
Verification of `tomato_bot.py` against its specification.

The program is shallowly embedded: Python strings are modelled as `List Char`
(a sequence of code points, as in CPython), `bytes` as `List UInt8`, machine
I/O and network boundaries as explicit function parameters or inductive
oracle values, and Python exceptions as `Except`.  Every definition below is
translated from `src/tomato_bot.py`; line numbers in the doc comments refer
to that file.
-/

/-! ## Python string primitives -/

/-- Whitespace recognised by Python's `str.strip` / `str.rstrip`
(ASCII fragment: space, tab, newline, carriage return, vertical tab,
form feed; the claims never involve non-ASCII whitespace). -/
def pyIsSpace (c : Char) : Bool :=
  c == ' ' || c == '\t' || c == '\n' || c == '\r' || c == '\x0b' || c == '\x0c'

/-- Python `str.lstrip()`. -/
def pyLstrip (l : List Char) : List Char := l.dropWhile pyIsSpace

/-- Python `str.rstrip()`. -/
def pyRstrip (l : List Char) : List Char := (l.reverse.dropWhile pyIsSpace).reverse

/-- Python `str.strip()`. -/
def pyStrip (l : List Char) : List Char := pyRstrip (pyLstrip l)

/-- Python `str.lower()` (ASCII case folding; the only needle searched for is
the ASCII word "tomato"). -/
def pyLowerChar (c : Char) : Char :=
  if 'A' ≤ c ∧ c ≤ 'Z' then Char.ofNat (c.toNat + 32) else c

/-- Python `needle in hay` on strings: substring containment. -/
def containsSub (needle : List Char) : List Char → Bool
  | [] => needle.isEmpty
  | c :: t => needle.isPrefixOf (c :: t) || containsSub needle t

/-- Python truthiness filter for an optional string: `None` and `""` are
falsy, everything else is kept. -/
def pyTruthy : Option String → Option String
  | none => none
  | some s => if s = "" then none else some s

/-- Python `d.get(k, "")` for an optional string field. -/
def getStr (o : Option String) : String := o.getD ""

/-! ## Configuration constants (src lines 36-38, 83) -/

/-- `MAX_TEXT_LEN = 300` (src line 37). -/
def MAX_TEXT_LEN : Nat := 300

/-- `HASHTAGS_SUFFIX = "\n\n#tomato #art"` (src line 38). -/
def HASHTAGS_SUFFIX : List Char := "\n\n#tomato #art".toList

/-- `MAX_SIZE = 950 * 1024` — the image size ceiling inside
`post_to_bluesky` (src line 83). -/
def MAX_SIZE : Nat := 950 * 1024

/-! ## Caption builder: `add_hashtags` (src lines 55-65) -/

/-- `add_hashtags(base_text)` (src lines 55-65), translated clause by
clause: strip the base, append the suffix, return unchanged when within
`MAX_TEXT_LEN`; otherwise truncate the base to `MAX_TEXT_LEN - len(suffix)`
characters, right-strip, append an ellipsis, and re-append the suffix. -/
def add_hashtags (base_text : List Char) : List Char :=
  let base := pyStrip base_text
  let suffix := HASHTAGS_SUFFIX
  let full := base ++ suffix
  if full.length ≤ MAX_TEXT_LEN then full
  else
    let allowed : Int := (MAX_TEXT_LEN : Int) - (suffix.length : Int)
    if allowed ≤ 0 then pyStrip suffix
    else (pyRstrip (base.take allowed.toNat) ++ ['…']) ++ suffix

/-- Claim C4: whenever the stripped base text plus the hashtag suffix fits
within `MAX_TEXT_LEN`, `add_hashtags` returns exactly that concatenation —
no truncation, no ellipsis, no other alteration. -/
theorem add_hashtags_id_within_budget (t : List Char)
    (h : (pyStrip t ++ HASHTAGS_SUFFIX).length ≤ MAX_TEXT_LEN) :
    add_hashtags t = pyStrip t ++ HASHTAGS_SUFFIX := by
  simp only [add_hashtags]
  rw [if_pos h]

/-- Witness for C4 at the concrete base text "Tomato". -/
theorem add_hashtags_id_within_budget_witness :
    (pyStrip "Tomato".toList ++ HASHTAGS_SUFFIX).length ≤ MAX_TEXT_LEN ∧
    add_hashtags "Tomato".toList = pyStrip "Tomato".toList ++ HASHTAGS_SUFFIX :=
  ⟨by decide, add_hashtags_id_within_budget "Tomato".toList (by decide)⟩

set_option maxRecDepth 8192 in
/-- Claim C1: the caption produced by `add_hashtags` can exceed
`MAX_TEXT_LEN`.  On a base text of 287 non-whitespace characters the code
truncates to 286 characters, appends the one-character ellipsis and the
14-character suffix, returning 301 characters — one more than the budget. -/
theorem add_hashtags_overflow :
    (add_hashtags (List.replicate 287 'a')).length = 301 ∧
    MAX_TEXT_LEN < (add_hashtags (List.replicate 287 'a')).length := by
  decide

/-! ## The dedup ledger: `load_seen_ids` / `save_seen_ids` (src lines 41-53)

The ledger file `posted_ids.json` is modelled by the outcome of opening and
parsing it: either opening/reading raises, or `json.load` raises, or
`json.load` yields a JSON value.  JSON values are a mutual inductive (arrays
and objects carry their own list types so that decidable equality can be
derived). -/

mutual
/-- A JSON value, the result type of Python's `json.load`. -/
inductive Json where
  | null
  | bool (b : Bool)
  | num (n : Int)
  | str (s : String)
  | arr (elems : JsonList)
  | obj (fields : JsonObj)
deriving DecidableEq

/-- The element list of a JSON array. -/
inductive JsonList where
  | nil
  | cons (hd : Json) (tl : JsonList)
deriving DecidableEq

/-- The field list of a JSON object. -/
inductive JsonObj where
  | nil
  | cons (key : String) (val : Json) (tl : JsonObj)
deriving DecidableEq
end

/-- Convert an embedded JSON array to a Lean list. -/
def JsonList.toList : JsonList → List Json
  | .nil => []
  | .cons h t => h :: t.toList

/-- Build an embedded JSON array from a Lean list. -/
def JsonList.ofList : List Json → JsonList
  | [] => .nil
  | h :: t => .cons h (JsonList.ofList t)

/-- The keys of an embedded JSON object, in order. -/
def JsonObj.keys : JsonObj → List String
  | .nil => []
  | .cons k _ t => k :: t.keys

/-- The state of the ledger file as observed by `load_seen_ids`. -/
inductive FileState where
  | missing
  | unreadable
  | malformed
  | parsed (j : Json)

/-- Whether a decoded JSON value is hashable in Python: `None`, booleans,
numbers and strings are; lists and dicts (decoded arrays and objects) are
not, so `set()` raises `TypeError` on meeting one as an element. -/
def Json.isHashable : Json → Bool
  | .arr _ => false
  | .obj _ => false
  | _ => true

/-- Python `set(v)` on a decoded JSON value `v`: iterating a JSON array
yields its elements — but `set()` raises `TypeError` (`none`) when any
element is unhashable (a nested array or object); iterating a string yields
its one-character substrings, iterating an object yields its keys (both
always hashable), and `set()` of `null`/booleans/numbers raises
`TypeError` (`none`). -/
def pySetOfJson : Json → Option (Finset Json)
  | .null => none
  | .bool _ => none
  | .num _ => none
  | .str s => some (s.toList.map (fun c => Json.str c.toString)).toFinset
  | .arr xs =>
    if xs.toList.all Json.isHashable then some xs.toList.toFinset else none
  | .obj kvs => some (kvs.keys.map Json.str).toFinset

/-- The body of the `try` block in `load_seen_ids` (src lines 43-44):
`open` then `json.load` then `set(...)`; any step may raise. -/
def loadAttempt : FileState → Except Unit (Finset Json)
  | .missing => .error ()
  | .unreadable => .error ()
  | .malformed => .error ()
  | .parsed j =>
    match pySetOfJson j with
    | none => .error ()
    | some s => .ok s

/-- `load_seen_ids()` (src lines 41-46): the `try` body, with every
exception caught and turned into the empty set. -/
def load_seen_ids (fs : FileState) : Finset Json :=
  match loadAttempt fs with
  | .error _ => ∅
  | .ok s => s

/-- The list written by `save_seen_ids` (src line 51):
`sorted(list(seen))`, Python's lexicographic code-point order on strings. -/
def savedKeyList (seen : Finset String) : List String := seen.sort (· ≤ ·)

/-- `save_seen_ids(seen)` (src lines 48-53): on success the ledger file
holds the JSON array of the sorted keys. -/
def save_seen_ids (seen : Finset String) : FileState :=
  .parsed (.arr (JsonList.ofList ((savedKeyList seen).map Json.str)))

/-- Whether a JSON value is a string. -/
def Json.isStr : Json → Bool
  | .str _ => true
  | _ => false

/-- Round trip: `JsonList.toList` inverts `JsonList.ofList`. -/
theorem JsonList.toList_ofList (l : List Json) : (JsonList.ofList l).toList = l := by
  induction l with
  | nil => rfl
  | cons h t ih => simp [JsonList.ofList, JsonList.toList, ih]

/-- Helper: `toFinset` of a mapped list is the image of its `toFinset`. -/
theorem list_toFinset_map {α β : Type} [DecidableEq α] [DecidableEq β]
    (f : α → β) (l : List α) : (l.map f).toFinset = l.toFinset.image f := by
  ext b
  simp [List.mem_toFinset, Finset.mem_image, List.mem_map]

/-- Helper: loading the file written by `save_seen_ids` recovers exactly the
saved keys (as JSON strings). -/
theorem load_of_save (T : Finset String) :
    load_seen_ids (save_seen_ids T) = T.image Json.str := by
  have hall : ((savedKeyList T).map Json.str).all Json.isHashable = true := by
    simp [List.all_eq_true, Json.isHashable]
  simp only [load_seen_ids, loadAttempt, save_seen_ids, pySetOfJson,
    JsonList.toList_ofList, hall, if_true, list_toFinset_map]
  rw [savedKeyList, Finset.sort_toFinset]

/-- Claim C8 counterexample: a valid-JSON ledger file holding the array
`[1]` makes `load_seen_ids` return the set containing the number 1, which
is not a set of strings. -/
theorem load_seen_ids_non_string_element :
    Json.num 1 ∈ load_seen_ids (.parsed (.arr (.cons (.num 1) .nil))) ∧
    (Json.num 1).isStr = false := by
  decide

/-- Claim C8, amended: `load_seen_ids` never raises; it returns the empty
set when the file is missing, unreadable, or malformed, when the decoded
JSON value is not iterable, and when a decoded array holds an unhashable
element (a nested array or object), `set()`'s `TypeError` being caught by
the same handler; on a decoded JSON array of hashable elements it returns
the set of those elements, which are all strings whenever the array holds
only strings (but need not be strings for an arbitrary valid array). -/
theorem load_seen_ids_error_spec :
    load_seen_ids .missing = ∅ ∧
    load_seen_ids .unreadable = ∅ ∧
    load_seen_ids .malformed = ∅ ∧
    (∀ j : Json, pySetOfJson j = none → load_seen_ids (.parsed j) = ∅) ∧
    (∀ xs : JsonList, xs.toList.all Json.isHashable = true →
      load_seen_ids (.parsed (.arr xs)) = xs.toList.toFinset) ∧
    (∀ xs : JsonList, xs.toList.all Json.isHashable = false →
      load_seen_ids (.parsed (.arr xs)) = ∅) ∧
    (∀ s : List String,
      ∀ v ∈ load_seen_ids (.parsed (.arr (JsonList.ofList (s.map Json.str)))),
      v.isStr = true) := by
  refine ⟨rfl, rfl, rfl, ?_, ?_, ?_, ?_⟩
  · intro j h
    simp [load_seen_ids, loadAttempt, h]
  · intro xs h
    simp [load_seen_ids, loadAttempt, pySetOfJson, h]
  · intro xs h
    simp [load_seen_ids, loadAttempt, pySetOfJson, h]
  · intro s v hv
    have hall : ((s.map Json.str).all Json.isHashable) = true := by
      simp [List.all_eq_true, Json.isHashable]
    simp only [load_seen_ids, loadAttempt, pySetOfJson, JsonList.toList_ofList,
      hall, if_true, List.mem_toFinset, List.mem_map] at hv
    obtain ⟨a, _, rfl⟩ := hv
    rfl

/-- Witness for C8 at concrete file states, among them the file `[[1]]`:
an array whose sole element is itself an array, hence unhashable. -/
theorem load_seen_ids_error_spec_witness :
    load_seen_ids (.parsed .null) = ∅ ∧
    load_seen_ids (.parsed (.arr (.cons (.str "a") .nil))) = {Json.str "a"} ∧
    load_seen_ids (.parsed (.arr (.cons (.arr (.cons (.num 1) .nil)) .nil))) = ∅ ∧
    (Json.str "a").isStr = true :=
  ⟨load_seen_ids_error_spec.2.2.2.1 .null rfl,
   load_seen_ids_error_spec.2.2.2.2.1 (.cons (.str "a") .nil) (by decide),
   load_seen_ids_error_spec.2.2.2.2.2.1 (.cons (.arr (.cons (.num 1) .nil)) .nil)
     (by decide),
   load_seen_ids_error_spec.2.2.2.2.2.2 ["a"] (Json.str "a") (by decide)⟩

/-- Claim C9: after a successful `save_seen_ids` of `insert k S`, a
subsequent `load_seen_ids` contains `k` and returns exactly `insert k S`
(as JSON strings); the file is serialized as the keys in sorted order. -/
theorem save_load_roundtrip (S : Finset String) (k : String) :
    Json.str k ∈ load_seen_ids (save_seen_ids (insert k S)) ∧
    load_seen_ids (save_seen_ids (insert k S)) = (insert k S).image Json.str ∧
    List.Sorted (· ≤ ·) (savedKeyList (insert k S)) ∧
    (savedKeyList (insert k S)).toFinset = insert k S := by
  refine ⟨?_, load_of_save _, Finset.sort_sorted _ _, Finset.sort_toFinset _ _⟩
  rw [load_of_save]
  exact Finset.mem_image_of_mem _ (Finset.mem_insert_self k S)

/-! ## Image preparation inside `post_to_bluesky` (src lines 82-96) -/

/-- Python `bytes`. -/
abbrev PyBytes := List UInt8

/-- The image-size branch of `post_to_bluesky` (src lines 82-96): if the
downloaded bytes exceed `MAX_SIZE`, decode, scale both dimensions to 80 %,
and re-encode as JPEG quality 85 — a single unconditional pass with no size
check afterwards.  The PIL decode/resize/re-encode pipeline is the external
boundary, passed in as `resizeReencode`. -/
def prepare_image (resizeReencode : PyBytes → PyBytes) (image_data : PyBytes) : PyBytes :=
  if MAX_SIZE < image_data.length then resizeReencode image_data else image_data

/-- Claim C7 counterexample: when the single resize/re-encode pass yields
bytes still longer than `MAX_SIZE` (here: a pass that leaves the oversized
input unchanged), the prepared image exceeds the limit — the code never
re-checks the size after the pass. -/
theorem prepare_image_exceeds_limit :
    MAX_SIZE < (prepare_image (fun b => b) (List.replicate (MAX_SIZE + 1) 0)).length := by
  simp [prepare_image, List.length_replicate]

/-- Claim C7, amended: image preparation is a single conditional pass:
input within `MAX_SIZE` bytes is returned unchanged, and oversized input is
resized and re-encoded exactly once, the result being whatever that single
pass produced (with no guarantee it is within the limit). -/
theorem prepare_image_single_pass (f : PyBytes → PyBytes) (raw : PyBytes) :
    (raw.length ≤ MAX_SIZE → prepare_image f raw = raw) ∧
    (MAX_SIZE < raw.length → prepare_image f raw = f raw) := by
  refine ⟨fun h => ?_, fun h => ?_⟩
  · simp only [prepare_image]
    rw [if_neg (Nat.not_lt.mpr h)]
  · simp only [prepare_image]
    rw [if_pos h]

/-- Witness for C7 at concrete inputs: empty bytes pass through unchanged,
and oversized bytes go through the re-encode pass. -/
theorem prepare_image_single_pass_witness :
    ([] : PyBytes).length ≤ MAX_SIZE ∧
    prepare_image (fun b => b) [] = [] ∧
    MAX_SIZE < (List.replicate (MAX_SIZE + 1) (0 : UInt8)).length ∧
    prepare_image (fun _ => [(1 : UInt8)]) (List.replicate (MAX_SIZE + 1) 0) = [(1 : UInt8)] :=
  ⟨by decide,
   (prepare_image_single_pass (fun b => b) []).1 (by decide),
   by rw [List.length_replicate]; exact Nat.lt_succ_self _,
   (prepare_image_single_pass (fun _ => [(1 : UInt8)]) _).2
     (by rw [List.length_replicate]; exact Nat.lt_succ_self _)⟩

/-! ## Museum providers (src lines 118-261)

Each `pick_*` function talks to the network; those boundaries are passed in
explicitly: the search step as an `Except` value (failure = the request or
`raise_for_status()` raised), the per-item detail fetch as an oracle
function, and `random.shuffle` as an arbitrary reordering function. -/

/-- A candidate as returned by every `pick_*` function:
`(caption, image_url, sourceKey)`. -/
abbrev Candidate := String × String × String

/-- A failure of the Met detail fetch (src lines 192-199): either
`requests.exceptions.HTTPError` carrying a status code, or any other
requests failure (timeout, connection error). -/
inductive FetchErr where
  | http (status : Nat)
  | net
deriving DecidableEq

/-- One entry of the `tags` list of a Met object record. -/
structure MetTag where
  term : Option String

/-- The fields of a Met object detail record read by the code
(src lines 120-142 and 201-219). -/
structure MetObj where
  title : Option String
  objectName : Option String
  medium : Option String
  culture : Option String
  classification : Option String
  tags : Option (List MetTag)
  isPublicDomain : Bool
  primaryImageSmall : Option String
  primaryImage : Option String
  artistDisplayName : Option String
  objectDate : Option String
  creditLine : Option String
  department : Option String

/-- `is_tomato_related(obj)` (src lines 120-142): join title, objectName,
medium, culture, classification and all tag terms with spaces, lowercase,
and test for the substring "tomato". -/
def is_tomato_related (obj : MetObj) : Bool :=
  let search_fields :=
    [getStr obj.title, getStr obj.objectName, getStr obj.medium,
     getStr obj.culture, getStr obj.classification] ++
    (obj.tags.getD []).map (fun t => getStr t.term)
  let combined := (String.intercalate " " search_fields).toList.map pyLowerChar
  containsSub "tomato".toList combined

/-- A caption line that is appended only when the string is truthy
(the `if field: lines.append(field)` pattern). -/
def optLine (s : String) : List String := if s = "" then [] else [s]

/-- The caption built for a Met object (src lines 209-221). -/
def metCaption (obj : MetObj) : String :=
  String.intercalate "\n"
    ([obj.title.getD "Untitled"] ++
     optLine (getStr obj.artistDisplayName) ++
     optLine (getStr obj.objectDate) ++
     optLine (getStr obj.creditLine) ++
     (if getStr obj.department = "" then []
      else ["Source: " ++ getStr obj.department ++ ", The Met Open Access"]))

/-- `img = obj.get("primaryImageSmall") or obj.get("primaryImage")` followed
by the `if not img` check (src lines 205-207). -/
def metImage (obj : MetObj) : Option String :=
  (pyTruthy obj.primaryImageSmall).orElse (fun _ => pyTruthy obj.primaryImage)

/-- The `for oid in object_ids` loop of `pick_met_tomato`
(src lines 186-222): skip items already in the ledger, fetch the detail
record (a 404 skips the item, any other failure propagates — the `raise` on
src line 199 for non-404 `HTTPError`s, and no handler at all for other
request failures), then require the public-domain flag and an image. -/
def metLoop (detail : String → Except FetchErr MetObj) (seen : Finset String) :
    List String → Except FetchErr (Option Candidate)
  | [] => .ok none
  | oid :: rest =>
    if ("met:" ++ oid) ∈ seen then metLoop detail seen rest
    else
      match detail oid with
      | .error (.http s) => if s = 404 then metLoop detail seen rest else .error (.http s)
      | .error .net => .error .net
      | .ok obj =>
        if obj.isPublicDomain = false then metLoop detail seen rest
        else
          match metImage obj with
          | none => metLoop detail seen rest
          | some img => .ok (some (metCaption obj, img, "met:" ++ oid))

/-- `pick_met_tomato(seen)` (src lines 144-225).  `searchResult` is the
website-scrape step (src lines 157-163): a failure there is caught and the
function returns `None`; success yields the scraped object-id list, which
the code deduplicates (`list(set(...))`, src line 176), empty-checks, and
shuffles before the loop. -/
def pick_met_tomato (searchResult : Except Unit (List String))
    (shuffle : List String → List String)
    (detail : String → Except FetchErr MetObj)
    (seen : Finset String) : Except FetchErr (Option Candidate) :=
  match searchResult with
  | .error _ => .ok none
  | .ok ids =>
    if ids.dedup.isEmpty then .ok none
    else metLoop detail seen (shuffle ids.dedup)

/-- The `url` field of a CMA `web` image record. -/
structure CmaWebImg where
  url : Option String

/-- The `images` field of a CMA object record. -/
structure CmaImages where
  web : Option CmaWebImg

/-- One entry of the `creators` list of a CMA object record. -/
structure CmaCreator where
  description : Option String

/-- The fields of a CMA search-result record read by the code
(src lines 240-258). -/
structure CmaObj where
  id : Option Int
  images : Option CmaImages
  title : Option String
  creators : Option (List CmaCreator)
  creation_date : Option String
  creditline : Option String

/-- Python `str(x)` on an optional integer (`str(obj.get("id"))`,
src line 241). -/
def pyStr : Option Int → String
  | none => "None"
  | some n => toString n

/-- `(obj.get("images") or {}).get("web",{}).get("url")` with the following
`if not img` check (src lines 245-246). -/
def cmaImage (obj : CmaObj) : Option String :=
  pyTruthy (obj.images.bind (fun i => i.web.bind (fun w => w.url)))

/-- The creator caption line of a CMA object (src lines 249-250, 254):
`creators[0].get("description")` when the creators list is non-empty,
appended only when truthy. -/
def cmaCreatorLine (obj : CmaObj) : List String :=
  match obj.creators.getD [] with
  | [] => []
  | c :: _ => optLine (getStr c.description)

/-- The caption built for a CMA object (src lines 248-258). -/
def cmaCaption (obj : CmaObj) : String :=
  String.intercalate "\n"
    ([obj.title.getD "Untitled"] ++
     cmaCreatorLine obj ++
     optLine (getStr obj.creation_date) ++
     optLine (getStr obj.creditline) ++
     ["Source: The Cleveland Museum of Art (CC0)"])

/-- The `for obj in objs` loop of `pick_cma_tomato` (src lines 240-259):
skip items already in the ledger or without a web image URL, return the
first remaining item. -/
def cmaLoop (seen : Finset String) : List CmaObj → Option Candidate
  | [] => none
  | obj :: rest =>
    if ("cma:" ++ pyStr obj.id) ∈ seen then cmaLoop seen rest
    else
      match cmaImage obj with
      | none => cmaLoop seen rest
      | some img => some (cmaCaption obj, img, "cma:" ++ pyStr obj.id)

/-- `pick_cma_tomato(seen)` (src lines 227-261).  `searchResult` is the CMA
search request plus `raise_for_status()` plus `r.json()` (src lines
235-237); the code wraps none of it in a `try`, so a failure there
propagates out of the function. -/
def pick_cma_tomato (searchResult : Except Unit (List CmaObj))
    (shuffle : List CmaObj → List CmaObj)
    (seen : Finset String) : Except Unit (Option Candidate) :=
  match searchResult with
  | .error e => .error e
  | .ok objs => .ok (cmaLoop seen (shuffle objs))

/-- Helper: when every detail fetch answers HTTP 404, the Met loop exhausts
its list and yields `None` without raising. -/
theorem metLoop_all_404 (detail : String → Except FetchErr MetObj)
    (seen : Finset String) (h : ∀ oid, detail oid = .error (.http 404)) :
    ∀ l : List String, metLoop detail seen l = .ok none := by
  intro l
  induction l with
  | nil => rfl
  | cons o rest ih =>
    by_cases hm : ("met:" ++ o) ∈ seen
    · simp [metLoop, hm, ih]
    · simp [metLoop, hm, h o, ih]

/-- Claim C3 counterexample: a failed CMA search request propagates out of
`pick_cma_tomato`, and a non-HTTP failure (e.g. a timeout) of a Met detail
fetch propagates out of `pick_met_tomato` — neither is caught and treated
as "yielded nothing". -/
theorem cma_search_failure_propagates :
    pick_cma_tomato (.error ()) (fun l => l) ∅ = .error () ∧
    pick_met_tomato (.ok ["1"]) (fun l => l) (fun _ => .error .net) ∅ = .error .net := by
  exact ⟨rfl, rfl⟩

/-- Claim C3, amended: the Met search-step failure is caught (the provider
returns `None`), and an HTTP 404 on a Met detail fetch only skips that item;
but a CMA search failure propagates out of `pick_cma_tomato`, and a Met
detail-fetch failure other than HTTP 404 propagates out of
`pick_met_tomato`. -/
theorem provider_failure_semantics :
    (∀ (shuffle : List String → List String)
       (detail : String → Except FetchErr MetObj) (seen : Finset String),
       pick_met_tomato (.error ()) shuffle detail seen = .ok none) ∧
    (∀ (ids : List String) (shuffle : List String → List String)
       (detail : String → Except FetchErr MetObj) (seen : Finset String),
       (∀ oid, detail oid = .error (.http 404)) →
       pick_met_tomato (.ok ids) shuffle detail seen = .ok none) ∧
    (∀ (e : Unit) (shuffle : List CmaObj → List CmaObj) (seen : Finset String),
       pick_cma_tomato (.error e) shuffle seen = .error e) ∧
    (∀ (e : FetchErr) (detail : String → Except FetchErr MetObj)
       (seen : Finset String) (oid : String),
       e ≠ .http 404 → ("met:" ++ oid) ∉ seen → detail oid = .error e →
       pick_met_tomato (.ok [oid]) (fun l => l) detail seen = .error e) := by
  refine ⟨fun _ _ _ => rfl, ?_, fun _ _ _ => rfl, ?_⟩
  · intro ids shuffle detail seen h
    simp only [pick_met_tomato]
    by_cases hd : ids.dedup.isEmpty
    · rw [if_pos hd]
    · rw [if_neg hd, metLoop_all_404 detail seen h]
  · intro e detail seen oid hne hmem hd
    have hsingle : [oid].dedup = [oid] := by simp
    simp only [pick_met_tomato, hsingle, List.isEmpty_cons, if_false, Bool.false_eq_true,
      reduceIte]
    simp only [metLoop, if_neg hmem, hd]
    cases e with
    | http s =>
      have hs : s ≠ 404 := fun h404 => hne (by rw [h404])
      simp [hs]
    | net => rfl

/-- Witness for C3's amended statement at concrete inputs. -/
theorem provider_failure_semantics_witness :
    pick_met_tomato (.error ()) (fun l => l) (fun _ => .error .net) ∅ = .ok none ∧
    pick_met_tomato (.ok ["7"]) (fun l => l) (fun _ => .error (.http 404)) ∅ = .ok none ∧
    pick_cma_tomato (.error ()) (fun l => l) {"cma:1"} = .error () ∧
    pick_met_tomato (.ok ["9"]) (fun l => l) (fun _ => .error (.http 500)) ∅ =
      .error (.http 500) :=
  ⟨provider_failure_semantics.1 (fun l => l) (fun _ => .error .net) ∅,
   provider_failure_semantics.2.1 ["7"] (fun l => l) (fun _ => .error (.http 404)) ∅
     (fun _ => rfl),
   provider_failure_semantics.2.2.1 () (fun l => l) {"cma:1"},
   provider_failure_semantics.2.2.2 (.http 500) (fun _ => .error (.http 500)) ∅ "9"
     (by decide) (by decide) rfl⟩

/-- Helper: everything the Met loop guarantees about a candidate it
returns: the key is fresh, and the underlying detail record is public
domain with an image — relevance is not among the checks. -/
theorem metLoop_spec (detail : String → Except FetchErr MetObj)
    (seen : Finset String) (l : List String) (c : Candidate)
    (h : metLoop detail seen l = .ok (some c)) :
    c.2.2 ∉ seen ∧ ∃ oid obj, c.2.2 = "met:" ++ oid ∧ detail oid = .ok obj ∧
      obj.isPublicDomain = true ∧ metImage obj = some c.2.1 ∧
      c.1 = metCaption obj := by
  induction l with
  | nil => simp [metLoop] at h
  | cons o rest ih =>
    simp only [metLoop] at h
    split at h
    · exact ih h
    · rename_i hm
      split at h
      · rename_i s heq
        split at h
        · exact ih h
        · exact absurd h (by simp)
      · exact absurd h (by simp)
      · rename_i obj heq
        split at h
        · exact ih h
        · rename_i hpd
          split at h
          · exact ih h
          · rename_i img himg
            injection h with h1
            injection h1 with h2
            subst h2
            simp only [Bool.not_eq_false] at hpd
            exact ⟨hm, o, obj, rfl, heq, hpd, himg, rfl⟩

/-- Claim C6, amended: the relevance predicate `is_tomato_related` is
defined but never invoked; what `pick_met_tomato` does enforce before
returning a candidate is: the sourceKey is not in the ledger, the detail
record has its public-domain flag set, and it has a non-empty image URL
(the caption is derived from that same record). -/
theorem pick_met_eligibility (searchResult : Except Unit (List String))
    (shuffle : List String → List String)
    (detail : String → Except FetchErr MetObj) (seen : Finset String)
    (c : Candidate)
    (h : pick_met_tomato searchResult shuffle detail seen = .ok (some c)) :
    c.2.2 ∉ seen ∧ ∃ oid obj, c.2.2 = "met:" ++ oid ∧ detail oid = .ok obj ∧
      obj.isPublicDomain = true ∧ metImage obj = some c.2.1 ∧
      c.1 = metCaption obj := by
  cases searchResult with
  | error e => simp [pick_met_tomato] at h
  | ok ids =>
    simp only [pick_met_tomato] at h
    split at h
    · simp at h
    · exact metLoop_spec detail seen _ c h

/-- A Met detail record with tomato-free metadata in every field that
`is_tomato_related` inspects, but public domain and with an image. -/
def metNonTomatoObj : MetObj :=
  ⟨some "Wheat Field", some "Painting", some "Oil on canvas", some "American",
   some "Paintings", some [⟨some "wheat"⟩, ⟨some "field"⟩], true,
   some "https://img.example/1s.jpg", none, some "Jane Doe", some "1900", none,
   some "American Wing"⟩

/-- A Met detail record that is tomato-related, public domain, and has an
image. -/
def metTomatoObj : MetObj :=
  ⟨some "Still Life with Tomatoes", none, none, none, none, none, true,
   some "https://img.example/t.jpg", none, none, none, none, none⟩

/-- Claim C6 counterexample: `pick_met_tomato` returns a candidate whose
metadata fails the `is_tomato_related` relevance check — the check is never
applied to the fetched detail record. -/
theorem met_returns_non_tomato_item :
    is_tomato_related metNonTomatoObj = false ∧
    pick_met_tomato (.ok ["42"]) (fun l => l) (fun _ => .ok metNonTomatoObj) ∅ =
      .ok (some ("Wheat Field\nJane Doe\n1900\nSource: American Wing, The Met Open Access",
        "https://img.example/1s.jpg", "met:42")) := by
  exact ⟨by decide, rfl⟩

/-- Witness for C6's amended statement: the guarantees hold of the concrete
candidate produced from `metTomatoObj`. -/
theorem pick_met_eligibility_witness :
    (metCaption metTomatoObj, "https://img.example/t.jpg", ("met:5" : String)).2.2 ∉
      (∅ : Finset String) ∧
    ∃ oid obj,
      (metCaption metTomatoObj, "https://img.example/t.jpg", ("met:5" : String)).2.2 =
        "met:" ++ oid ∧
      (fun _ : String => (Except.ok metTomatoObj : Except FetchErr MetObj)) oid = .ok obj ∧
      obj.isPublicDomain = true ∧
      metImage obj =
        some (metCaption metTomatoObj, "https://img.example/t.jpg", ("met:5" : String)).2.1 ∧
      (metCaption metTomatoObj, "https://img.example/t.jpg", ("met:5" : String)).1 =
        metCaption obj :=
  pick_met_eligibility (.ok ["5"]) (fun l => l)
    (fun _ => (Except.ok metTomatoObj : Except FetchErr MetObj)) ∅
    (metCaption metTomatoObj, "https://img.example/t.jpg", "met:5") rfl

/-! ## The orchestrator: `main` (src lines 620-648) -/

/-- How one run of `main` ends: a successful post, exhaustion of all
providers, an uncaught provider exception, or an uncaught
`post_to_bluesky` exception. -/
inductive RunResult where
  | posted (key : String)
  | exhausted
  | pickerError
  | publishError
deriving DecidableEq

/-- The observable effect of one run: its `RunResult` together with the
contents written to the ledger file, `none` when `save_seen_ids` was never
called. -/
structure RunOutcome where
  result : RunResult
  ledgerWritten : Option (Finset String)

/-- The `for label, picker in pickers` loop of `main` (src lines 635-648):
call each picker on the same loaded `seen` set; on the first candidate,
publish it (`post_to_bluesky`, a boundary that may raise), and only after
that returns add the key and save the ledger; a raising picker or a raising
publish ends the run with nothing written. -/
def runFrom (seen : Finset String) (publish : String → String → Except Unit Unit) :
    List (Finset String → Except Unit (Option Candidate)) → RunOutcome
  | [] => ⟨.exhausted, none⟩
  | picker :: rest =>
    match picker seen with
    | .error _ => ⟨.pickerError, none⟩
    | .ok none => runFrom seen publish rest
    | .ok (some (caption, image_url, key)) =>
      match publish caption image_url with
      | .error _ => ⟨.publishError, none⟩
      | .ok _ => ⟨.posted key, some (insert key seen)⟩

/-- The picker list literal of `main` (src lines 623-632), by label, in
source order: Library of Congress, Cooper Hewitt, Cleveland Museum of Art,
The Met (the Art Institute entry is commented out). -/
def mainPickerLabels : List String :=
  ["Library of Congress", "Cooper Hewitt", "Cleveland Museum of Art", "The Met"]

/-- The provider order `main` iterates, as a function of the random seed:
`random.shuffle(pickers)` (src line 634) is commented out — "Disabled for
testing - LOC first" — so the order is the literal list order for every
state of the random source. -/
def mainPickerOrder : Nat → List String := fun _ => mainPickerLabels

/-- Claim C5: the provider iteration order of `main` does not vary with the
random source; it is the fixed literal order for every seed, because the
shuffle call is commented out. -/
theorem main_picker_order_constant (r₁ r₂ : Nat) :
    mainPickerOrder r₁ = mainPickerOrder r₂ ∧ mainPickerOrder r₁ = mainPickerLabels :=
  ⟨rfl, rfl⟩

/-- Claim C2: the ledger is written only after a successful publish.  If
`post_to_bluesky` raises — and in particular if every publish attempt
fails — the run ends without `save_seen_ids` ever being called, so the
ledger file is untouched and the candidate stays unseen for the next
run. -/
theorem ledger_unchanged_on_publish_failure (seen : Finset String)
    (publish : String → String → Except Unit Unit)
    (pickers : List (Finset String → Except Unit (Option Candidate))) :
    ((runFrom seen publish pickers).result = .publishError →
      (runFrom seen publish pickers).ledgerWritten = none) ∧
    ((∀ cap img, publish cap img = .error ()) →
      (runFrom seen publish pickers).ledgerWritten = none) := by
  induction pickers with
  | nil => exact ⟨fun _ => rfl, fun _ => rfl⟩
  | cons p rest ih =>
    cases hp : p seen with
    | error e =>
      have hr : runFrom seen publish (p :: rest) = ⟨.pickerError, none⟩ := by
        simp [runFrom, hp]
      rw [hr]
      exact ⟨fun _ => rfl, fun _ => rfl⟩
    | ok o =>
      cases o with
      | none =>
        have hr : runFrom seen publish (p :: rest) = runFrom seen publish rest := by
          simp [runFrom, hp]
        rw [hr]
        exact ih
      | some c =>
        obtain ⟨cap, img, key⟩ := c
        cases hpub : publish cap img with
        | error e =>
          have hr : runFrom seen publish (p :: rest) = ⟨.publishError, none⟩ := by
            simp [runFrom, hp, hpub]
          rw [hr]
          exact ⟨fun _ => rfl, fun _ => rfl⟩
        | ok u =>
          have hr : runFrom seen publish (p :: rest) =
              ⟨.posted key, some (insert key seen)⟩ := by
            simp [runFrom, hp, hpub]
          rw [hr]
          refine ⟨fun hres => ?_, fun hall => ?_⟩
          · exact absurd hres (by simp)
          · exact absurd hpub (by simp [hall cap img])

/-- Witness for C2: with a failing publish boundary and a provider that
does yield a candidate, the run ends in `publishError` and writes
nothing. -/
theorem ledger_unchanged_on_publish_failure_witness :
    (runFrom ∅ (fun _ _ => .error ())
      [fun _ => .ok (some ("c", "i", "k"))]).ledgerWritten = none ∧
    (runFrom {"met:1"} (fun _ _ => .error ())
      [fun _ => .ok none, fun _ => .ok (some ("c", "i", "k"))]).ledgerWritten = none :=
  ⟨(ledger_unchanged_on_publish_failure ∅ (fun _ _ => .error ())
      [fun _ => .ok (some ("c", "i", "k"))]).1 rfl,
   (ledger_unchanged_on_publish_failure {"met:1"} (fun _ _ => .error ())
      [fun _ => .ok none, fun _ => .ok (some ("c", "i", "k"))]).2 (fun _ _ => rfl)⟩

/-- Claim C10: the frame property of one run on the ledger.  A run that
ends exhausted (every provider returned `None`) writes nothing; a run that
posts key `k` writes a set that keeps every previously seen key, contains
`k`, and contains nothing else. -/
theorem run_ledger_frame (seen : Finset String)
    (publish : String → String → Except Unit Unit)
    (pickers : List (Finset String → Except Unit (Option Candidate))) :
    ((runFrom seen publish pickers).result = .exhausted →
      (runFrom seen publish pickers).ledgerWritten = none) ∧
    (∀ k L, (runFrom seen publish pickers).result = .posted k →
      (runFrom seen publish pickers).ledgerWritten = some L →
      seen ⊆ L ∧ k ∈ L ∧ ∀ x ∈ L, x ∈ seen ∨ x = k) := by
  induction pickers with
  | nil => exact ⟨fun _ => rfl, fun k L hk hL => Option.noConfusion hL⟩
  | cons p rest ih =>
    cases hp : p seen with
    | error e =>
      have hr : runFrom seen publish (p :: rest) = ⟨.pickerError, none⟩ := by
        simp [runFrom, hp]
      rw [hr]
      exact ⟨fun h => RunResult.noConfusion h, fun k L hk hL => RunResult.noConfusion hk⟩
    | ok o =>
      cases o with
      | none =>
        have hr : runFrom seen publish (p :: rest) = runFrom seen publish rest := by
          simp [runFrom, hp]
        rw [hr]
        exact ih
      | some c =>
        obtain ⟨cap, img, key⟩ := c
        cases hpub : publish cap img with
        | error e =>
          have hr : runFrom seen publish (p :: rest) = ⟨.publishError, none⟩ := by
            simp [runFrom, hp, hpub]
          rw [hr]
          exact ⟨fun h => RunResult.noConfusion h, fun k L hk hL => RunResult.noConfusion hk⟩
        | ok u =>
          have hr : runFrom seen publish (p :: rest) =
              ⟨.posted key, some (insert key seen)⟩ := by
            simp [runFrom, hp, hpub]
          rw [hr]
          refine ⟨fun h => RunResult.noConfusion h, fun k L hk hL => ?_⟩
          injection hk with hkey
          injection hL with hLval
          subst hkey
          subst hLval
          refine ⟨Finset.subset_insert _ _, Finset.mem_insert_self _ _, fun x hx => ?_⟩
          rcases Finset.mem_insert.mp hx with h | h
          · exact Or.inr h
          · exact Or.inl h

/-- Witness for C10: an exhausted run writes nothing, and a successful run
writes exactly the old ledger plus the posted key. -/
theorem run_ledger_frame_witness :
    ((runFrom ∅ (fun _ _ => .ok ()) [fun _ => .ok none]).ledgerWritten = none) ∧
    (({"a"} : Finset String) ⊆ insert "k" ({"a"} : Finset String) ∧
      "k" ∈ insert "k" ({"a"} : Finset String) ∧
      ∀ x ∈ insert "k" ({"a"} : Finset String), x ∈ ({"a"} : Finset String) ∨ x = "k") :=
  ⟨(run_ledger_frame ∅ (fun _ _ => .ok ()) [fun _ => .ok none]).1 rfl,
   (run_ledger_frame {"a"} (fun _ _ => .ok ())
      [fun _ => .ok none, fun _ => .ok (some ("c", "i", "k"))]).2 "k"
      (insert "k" {"a"}) rfl rfl⟩
